import Mathlib

/- Verification of the cargo-context-lint core: a shallow embedding of the
collector (src/collector.rs), the double-context checker (src/checker.rs),
the unattributed-function detector (src/unattributed.rs) and the report
builder (src/report.rs), together with theorems about their behaviour.

String operations of the Rust standard library are modelled at the
character-list level so that every definition evaluates inside the kernel:
to_lowercase and to_ascii_lowercase are modelled with the ASCII-only
Char.toLower, str::trim with a character-level trim, str::contains with
list infix, and str::strip_prefix with list prefix. These agree with the
Rust operations on ASCII data, which is the domain of file paths,
identifiers and attribute tokens handled by the lint. -/

set_option linter.unusedVariables false

namespace ContextLint

/-- Outcome of reading and parsing one source file, as each pass observes
it: reading can fail (an operational error), parsing can fail (the pass
degrades to an empty contribution), or parsing succeeds with a syntax
tree of type alpha. File input and parsing are external collaborators of
the core, so they enter the model as this parameter. -/
inductive FileInput (α : Type) where
  | readFailure
  | parseFailure
  | parsed (ast : α)

/-- One token of an attribute argument stream: a literal token carrying
its raw source representation (what Literal.to_string returns, quotes
included for string literals), or any other token. -/
inductive Token where
  | lit (litRepr : String)
  | other (tokRepr : String)
deriving DecidableEq

/-- Whether a token is a literal token (the shapes the collector scan
distinguishes). -/
def token_is_lit : Token → Bool
  | Token.lit _ => true
  | Token.other _ => false

/-- The meta of an attribute: the list form carries its token stream both
as the token list that the collector scans and as the rendered Display
string that the cfg check compares; the other forms are a bare path and a
name-value pair. -/
inductive AttrMeta where
  | list (tokens : List Token) (tokensStr : String)
  | pathOnly
  | nameValue
deriving DecidableEq

/-- An attribute on a declaration: the identifiers of its path and its
meta. -/
structure Attribute where
  pathSegments : List String
  meta : AttrMeta
deriving DecidableEq

/-- Character-level model of String::to_lowercase as used on file paths
and path segments (ASCII lowering; the model and the Rust operation agree
on ASCII text). -/
def to_lowercase (s : String) : String :=
  String.mk (s.data.map Char.toLower)

/-- Whether the first list occurs as a contiguous sublist of the second
(computed by sliding a prefix check along the second list). -/
def list_infix_of (needle : List Char) : List Char → Bool
  | [] => needle.isEmpty
  | c :: rest => needle.isPrefixOf (c :: rest) || list_infix_of needle rest

/-- Character-level model of str::contains with a string pattern. -/
def str_contains (haystack needle : String) : Bool :=
  list_infix_of needle.data haystack.data

/-- Character-level model of str::trim: remove leading and trailing
whitespace. -/
def str_trim (s : String) : String :=
  String.mk (((s.data.dropWhile Char.isWhitespace).reverse.dropWhile
    Char.isWhitespace).reverse)

/-- Character-level model of str::eq_ignore_ascii_case. -/
def eq_ignore_ascii_case (a b : String) : Bool :=
  a.data.map Char.toLower == b.data.map Char.toLower

namespace Collector

/-- Information about a function annotated with a context attribute
(struct AnnotatedFunction in src/collector.rs). -/
structure AnnotatedFunction where
  name : String
  file : String
  line : Nat
  context_string : String
  is_method : Bool
deriving DecidableEq

/-- The index from function name to all annotated functions of that name
(type AnnotatedFunctions in src/collector.rs); the hash map is modelled
as an association list queried with lookup. -/
abbrev AnnotatedFunctions := List (String × List AnnotatedFunction)

/-- Strip the first and the last character of a string-literal
representation: models the slice repr[1 .. repr.len() - 1] in
extract_context_string. -/
def strip_quotes (r : String) : String :=
  String.mk ((r.data.drop 1).dropLast)

/-- True when a literal representation starts and ends with a double
quote: models repr.starts_with and repr.ends_with on the quote character
in extract_context_string. -/
def is_string_repr (r : String) : Bool :=
  r.data.head? == some '\"' && r.data.getLast? == some '\"'

/-- The token-stream scan inside extract_context_string: find the first
literal token whose representation is surrounded by double quotes and
return it with the quotes stripped. -/
def find_first_string_lit : List Token → Option String
  | [] => none
  | Token.lit r :: rest =>
      if is_string_repr r then some (strip_quotes r)
      else find_first_string_lit rest
  | Token.other _ :: rest => find_first_string_lit rest

/-- fn extract_context_string of src/collector.rs: recognize a context
attribute by its path (one segment named context, or the two-segment
fully qualified form), require the list meta form, and extract the first
string literal of the token stream. -/
def extract_context_string (attr : Attribute) : Option String :=
  let is_context :=
    match attr.pathSegments with
    | [p] => p == "context"
    | [p1, p2] => p1 == "fn_error_context" && p2 == "context"
    | _ => false
  if !is_context then none
  else
    match attr.meta with
    | AttrMeta.list tokens _ => find_first_string_lit tokens
    | _ => none

/-- fn check_fn of src/collector.rs: the first attribute whose extraction
succeeds records one entry, and the loop breaks (only one context
attribute counts per declaration); the pushed entries are returned as a
list. -/
def check_fn (file_path : String) (attrs : List Attribute) (name : String)
    (is_method : Bool) (line : Nat) : List AnnotatedFunction :=
  match attrs.findSome? extract_context_string with
  | some context_string =>
      [{ name := name, file := file_path, line := line,
         context_string := context_string, is_method := is_method }]
  | none => []

/-- A function-like declaration as the collector visitor observes it
(ItemFn, ImplItemFn or TraitItemFn): attributes, identifier, presence of
a receiver, and the line of the identifier span. -/
structure FnDecl where
  attrs : List Attribute
  name : String
  is_method : Bool
  line : Nat

/-- fn collect_from_file of src/collector.rs: a read failure is an error
carrying the offending path (the Reading context), a parse failure
yields an empty list, and a parsed file yields the entries of every
function-like declaration the visitor reaches. -/
def collect_from_file (path : String) (input : FileInput (List FnDecl)) :
    Except String (List AnnotatedFunction) :=
  match input with
  | .readFailure => .error ("Reading " ++ path)
  | .parseFailure => .ok []
  | .parsed decls =>
      .ok (decls.map (fun d => check_fn path d.attrs d.name d.is_method d.line)).flatten

end Collector

namespace Checker

open Collector (AnnotatedFunction AnnotatedFunctions)

/-- A detected double-context issue (struct DoubleContext in
src/checker.rs). -/
structure DoubleContext where
  call_file : String
  call_line : Nat
  function_name : String
  inner_context : String
  outer_context : Option String
  def_file : String
  def_line : Nat
  is_with_context : Bool
deriving DecidableEq

/-- Information about a callee extracted from a call expression (enum
CalleeInfo in src/checker.rs). -/
inductive CalleeInfo where
  | freeFunction (name : String) (path_segments : List String)
  | method (name : String)
deriving DecidableEq

/-- A literal expression as the context-argument extraction observes it:
a string literal with its value, or any non-string literal. -/
inductive Lit where
  | str (value : String)
  | otherLit
deriving DecidableEq

/-- The shape of a context-argument expression, covering the cases that
extract_context_arg distinguishes: a literal, a macro invocation (path
identifiers and rendered argument tokens), a closure with its body, or
any other expression. -/
inductive ArgExpr where
  | lit (l : Lit)
  | macroCall (pathSegments : List String) (tokens : String)
  | closure (body : ArgExpr)
  | otherArg
deriving DecidableEq

/-- A receiver expression as find_callee_in_receiver observes it: a call
whose function position is a path (with its segment identifiers) or some
other expression (modelled as none), a method call (only the method name
is consulted; the inner receiver is not chased), an await, a
parenthesization, a try expression, or any other shape. -/
inductive Expr where
  | call (funcPathSegments : Option (List String))
  | methodCall (methodName : String)
  | awaitExpr (base : Expr)
  | paren (inner : Expr)
  | tryExpr (inner : Expr)
  | otherExpr
deriving DecidableEq

/-- A context-combinator call expression as check_context_call observes
it: the invoked method name, the receiver, the argument list, and the
line of the method token span. -/
structure MethodCall where
  method : String
  receiver : Expr
  args : List ArgExpr
  methodLine : Nat
deriving DecidableEq

/-- fn is_common_function_name of src/checker.rs: the fixed denylist of
names too generic to match by name alone. -/
def is_common_function_name (name : String) : Bool :=
  match name with
  | "new" | "open" | "close" | "read" | "write" | "parse" | "from_str"
  | "from" | "into" | "try_from" | "try_into" | "default" | "clone"
  | "copy" | "run" | "start" | "stop" | "init" | "create" | "delete"
  | "remove" | "update" | "get" | "set" | "load" | "save" | "build"
  | "execute" | "exec" | "send" | "recv" | "connect" | "bind" | "listen"
  | "accept" | "flush" | "sync" | "drop" | "status" | "display"
  | "fmt" => true
  | _ => false

/-- fn extract_callee_from_func of src/checker.rs: a path function
position yields a free-function descriptor whose name is the last
segment; any other shape yields none. -/
def extract_callee_from_func (func : Option (List String)) : Option CalleeInfo :=
  match func with
  | some segments =>
      match segments.getLast? with
      | some name => some (CalleeInfo.freeFunction name segments)
      | none => none
  | none => none

/-- fn find_callee_in_receiver of src/checker.rs: strip await,
parentheses and try recursively; a direct call goes through
extract_callee_from_func; a method call yields a Method descriptor from
its name only; anything else yields none. -/
def find_callee_in_receiver : Expr → Option CalleeInfo
  | Expr.call func => extract_callee_from_func func
  | Expr.awaitExpr base => find_callee_in_receiver base
  | Expr.methodCall m => some (CalleeInfo.method m)
  | Expr.paren inner => find_callee_in_receiver inner
  | Expr.tryExpr inner => find_callee_in_receiver inner
  | Expr.otherExpr => none

/-- The name match performed in check_context_call on the extracted
callee. -/
def callee_name : CalleeInfo → String
  | CalleeInfo.freeFunction n _ => n
  | CalleeInfo.method n => n

/-- fn is_plausible_match of src/checker.rs, translated branch for
branch: for a free function with more than one segment, qualifying
segments are all but the last minus crate, self and super; when some
qualifying segment remains, a denylisted name requires a case-insensitive
path match while a distinctive name falls through to acceptance; when no
qualifying segment remains the code falls through to acceptance; an
unqualified denylisted name is rejected; a method call matches only a
method entry. -/
def is_plausible_match (callee : CalleeInfo) (annotated : AnnotatedFunction) :
    Bool :=
  match callee with
  | CalleeInfo.freeFunction name path_segments =>
    let common := is_common_function_name name
    if path_segments.length > 1 then
      let qualifying := (path_segments.take (path_segments.length - 1)).filter
        (fun s => s != "crate" && s != "self" && s != "super")
      if !qualifying.isEmpty then
        let def_path_lower := to_lowercase annotated.file
        let path_matches := qualifying.any (fun seg =>
          let seg_lower := to_lowercase seg
          str_contains def_path_lower seg_lower)
        if common then path_matches else true
      else true
    else if common then false
    else true
  | CalleeInfo.method _ => annotated.is_method

/-- The last-segment test on a macro path used by extract_context_arg
(path.segments.last maps to the format identifier). -/
def last_segment_is_format (pathSegments : List String) : Bool :=
  match pathSegments.getLast? with
  | some s => s == "format"
  | none => false

/-- fn extract_context_arg of src/checker.rs: first argument string
literal yields its value; a format macro yields the rendered
placeholder; a closure body is matched the same way, any other closure
body yielding the complex-expression sentinel; any other first argument
yields the sentinel; a non-string literal or a non-format macro yields
none, as does a missing argument. -/
def extract_context_arg (mc : MethodCall) : Option String :=
  match mc.args.head? with
  | none => none
  | some first_arg =>
    match first_arg with
    | ArgExpr.lit l =>
        match l with
        | Lit.str s => some s
        | Lit.otherLit => none
    | ArgExpr.macroCall segs tokens =>
        if last_segment_is_format segs then some ("format!(" ++ tokens ++ ")")
        else none
    | ArgExpr.closure body =>
        match body with
        | ArgExpr.lit (Lit.str s) => some s
        | ArgExpr.lit Lit.otherLit => none
        | ArgExpr.macroCall segs tokens =>
            if last_segment_is_format segs then
              some ("format!(" ++ tokens ++ ")")
            else none
        | _ => some "<complex expression>"
    | ArgExpr.otherArg => some "<complex expression>"

/-- The finding pushed for one surviving index entry inside
check_context_call. -/
def make_finding (file_path : String) (mc : MethodCall) (name : String)
    (annotated : AnnotatedFunction) : DoubleContext :=
  { call_file := file_path
    call_line := mc.methodLine
    function_name := name
    inner_context := annotated.context_string
    outer_context := extract_context_arg mc
    def_file := annotated.file
    def_line := annotated.line
    is_with_context := mc.method == "with_context" }

/-- fn check_context_call of src/checker.rs: only the context and
with_context combinators are inspected; the receiver chain is reduced to
a callee; the index is consulted by bare name; every entry surviving
is_plausible_match produces a finding. -/
def check_context_call (file_path : String) (index : AnnotatedFunctions)
    (mc : MethodCall) : List DoubleContext :=
  let is_with_context := mc.method == "with_context"
  if mc.method != "context" && !is_with_context then []
  else
    match find_callee_in_receiver mc.receiver with
    | none => []
    | some callee =>
      let cname := callee_name callee
      match index.lookup cname with
      | none => []
      | some annotated_fns =>
        (annotated_fns.filter (fun af => is_plausible_match callee af)).map
          (make_finding file_path mc cname)

/-- fn check_file of src/checker.rs: a read failure is an error carrying
the offending path, a parse failure yields an empty list, and a parsed
file yields the findings of every combinator call node the visitor
reaches. -/
def check_file (path : String) (index : AnnotatedFunctions)
    (input : FileInput (List MethodCall)) :
    Except String (List DoubleContext) :=
  match input with
  | .readFailure => .error ("Reading " ++ path)
  | .parseFailure => .ok []
  | .parsed calls => .ok (calls.map (check_context_call path index)).flatten

/-- Spec-side definition, following the wording of section 4.3 of the
spec: the qualifying segments of a call path are all segments but the
last, excluding the relative-reference markers crate, self and super. -/
def qualifying_segments (path_segments : List String) : List String :=
  (path_segments.take (path_segments.length - 1)).filter
    (fun s => s != "crate" && s != "self" && s != "super")

/-- Spec-side definition, following the wording of section 4.3 of the
spec: a call is path-qualified-matching for an entry when some
qualifying segment occurs case-insensitively inside the defining-file
path of the entry. -/
def path_qualified_matching (path_segments : List String)
    (annotated : AnnotatedFunction) : Bool :=
  (qualifying_segments path_segments).any (fun seg =>
    str_contains (to_lowercase annotated.file) (to_lowercase seg))

/-- A transparent wrapper that the receiver-chain reduction strips:
await, parentheses, or the try operator. -/
inductive Wrapper where
  | awaitW
  | parenW
  | tryW

/-- Apply a stack of transparent wrappers around an expression, outermost
wrapper first. -/
def apply_wrappers : List Wrapper → Expr → Expr
  | [], e => e
  | Wrapper.awaitW :: ws, e => Expr.awaitExpr (apply_wrappers ws e)
  | Wrapper.parenW :: ws, e => Expr.paren (apply_wrappers ws e)
  | Wrapper.tryW :: ws, e => Expr.tryExpr (apply_wrappers ws e)

end Checker

namespace Unattributed

/-- A function returning the anyhow result type without a context
attribute (struct UnattributedFunction in src/unattributed.rs). -/
structure UnattributedFunction where
  file : String
  line : Nat
  name : String
  is_method : Bool
  is_pub : Bool
deriving DecidableEq

/-- A generic argument of a path segment: a type argument or any other
kind (lifetime, const, constraint). -/
inductive GenericArgument where
  | typeArg
  | otherArg
deriving DecidableEq

/-- The arguments of a path segment: none, angle-bracketed generic
arguments, or parenthesized arguments. -/
inductive PathArguments where
  | noArgs
  | angleBracketed (args : List GenericArgument)
  | parenthesized
deriving DecidableEq

/-- One segment of a type path: its identifier and its arguments. -/
structure PathSegment where
  ident : String
  arguments : PathArguments
deriving DecidableEq

/-- A declared type as returns_anyhow_result observes it: a path type
with its segments, or any other shape. -/
inductive Ty where
  | path (segments : List PathSegment)
  | otherTy
deriving DecidableEq

/-- A declared return type: the default (no arrow) or an explicit type. -/
inductive ReturnType where
  | default
  | ty (t : Ty)
deriving DecidableEq

/-- A function signature as the detector observes it: identifier, line of
the identifier span, presence of a receiver, and return type. -/
structure Signature where
  ident : String
  line : Nat
  has_receiver : Bool
  output : ReturnType
deriving DecidableEq

/-- A declaration visibility: the unrestricted public form, a restricted
form such as pub(crate), or the inherited (private) form. -/
inductive Visibility where
  | publicVis
  | restricted
  | inherited
deriving DecidableEq

/-- fn has_single_type_argument of src/unattributed.rs: angle-bracketed
arguments with exactly one type argument. -/
def has_single_type_argument (args : PathArguments) : Bool :=
  match args with
  | PathArguments.angleBracketed angle =>
      (angle.filter (fun arg =>
        match arg with
        | GenericArgument.typeArg => true
        | _ => false)).length == 1
  | _ => false

/-- fn returns_anyhow_result of src/unattributed.rs: the two-segment
qualified form is accepted outright; the bare single-segment form is
accepted when the import flag is set and the segment carries exactly one
type argument; everything else is rejected. -/
def returns_anyhow_result (anyhow_result_imported : Bool) (sig : Signature) :
    Bool :=
  match sig.output with
  | ReturnType.default => false
  | ReturnType.ty t =>
    match t with
    | Ty.path segments =>
      let idents := segments.map (fun s => s.ident)
      if idents == ["anyhow", "Result"] then true
      else if idents == ["Result"] && anyhow_result_imported then
        match segments.getLast? with
        | some last_seg => has_single_type_argument last_seg.arguments
        | none => false
      else false
    | Ty.otherTy => false

/-- fn has_cfg_test_attribute of src/unattributed.rs: some attribute has
the single-segment cfg path and a list meta whose rendered token stream
trims to exactly the identifier test. -/
def has_cfg_test_attribute (attrs : List Attribute) : Bool :=
  attrs.any (fun attr =>
    if attr.pathSegments != ["cfg"] then false
    else
      match attr.meta with
      | AttrMeta.list _ tokensStr => str_trim tokensStr == "test"
      | _ => false)

/-- fn has_test_attribute of src/unattributed.rs: a bare test attribute
or one namespaced under exactly one segment. -/
def has_test_attribute (attrs : List Attribute) : Bool :=
  attrs.any (fun attr =>
    match attr.pathSegments with
    | [p] => p == "test"
    | [_, p2] => p2 == "test"
    | _ => false)

/-- fn has_context_attribute of src/unattributed.rs: the context marker
by short name or by the two-segment fully qualified form. -/
def has_context_attribute (attrs : List Attribute) : Bool :=
  attrs.any (fun attr =>
    match attr.pathSegments with
    | [p] => p == "context"
    | [p1, p2] => p1 == "fn_error_context" && p2 == "context"
    | _ => false)

/-- fn check_fn of src/unattributed.rs: skip inside a cfg-test module,
inside a trait impl, the main function, test-attributed functions,
context-attributed functions, and functions not returning the recognized
result shape; survivors are recorded with is_pub true exactly for the
unrestricted public visibility. -/
def check_fn (file_path : String) (anyhow_result_imported : Bool)
    (in_cfg_test : Bool) (in_trait_impl : Bool) (attrs : List Attribute)
    (sig : Signature) (vis : Option Visibility) : List UnattributedFunction :=
  if in_cfg_test then []
  else if in_trait_impl then []
  else if sig.ident == "main" then []
  else if has_test_attribute attrs then []
  else if has_context_attribute attrs then []
  else if !returns_anyhow_result anyhow_result_imported sig then []
  else
    let is_pub :=
      match vis with
      | some Visibility.publicVis => true
      | _ => false
    [{ file := file_path, line := sig.line, name := sig.ident,
       is_method := sig.has_receiver, is_pub := is_pub }]

/-- An item of the syntax tree as the detector visitor distinguishes
them: a function-like declaration, an impl block (with its trait-impl
flag and contained items), a module (with its attributes and contained
items), or anything else. -/
inductive Item where
  | fnItem (attrs : List Attribute) (sig : Signature) (vis : Option Visibility)
  | implItem (is_trait_impl : Bool) (items : List Item)
  | modItem (attrs : List Attribute) (items : List Item)
  | otherItem

/-- The mutable state of the UnattributedChecker visitor: the two scoped
flags and the accumulated results. -/
structure UaState where
  in_cfg_test : Bool
  in_trait_impl : Bool
  results : List UnattributedFunction

mutual

/-- The visitor of src/unattributed.rs on one item: a function-like
declaration goes through check_fn; an impl block sets the trait-impl
flag for its subtree and restores it; a module with a cfg-test attribute
sets the test flag for its subtree and restores it. -/
def visitItem (file_path : String) (anyhow_result_imported : Bool)
    (s : UaState) : Item → UaState
  | Item.fnItem attrs sig vis =>
      let found := check_fn file_path anyhow_result_imported s.in_cfg_test
        s.in_trait_impl attrs sig vis
      { s with results := s.results ++ found }
  | Item.implItem is_trait_impl items =>
      let prev := s.in_trait_impl
      let s1 := if is_trait_impl then { s with in_trait_impl := true } else s
      let s2 := visitItems file_path anyhow_result_imported s1 items
      { s2 with in_trait_impl := prev }
  | Item.modItem attrs items =>
      let prev := s.in_cfg_test
      let s1 :=
        if has_cfg_test_attribute attrs then { s with in_cfg_test := true }
        else s
      let s2 := visitItems file_path anyhow_result_imported s1 items
      { s2 with in_cfg_test := prev }
  | Item.otherItem => s

/-- The visitor threaded through a list of sibling items. -/
def visitItems (file_path : String) (anyhow_result_imported : Bool)
    (s : UaState) : List Item → UaState
  | [] => s
  | it :: rest =>
      visitItems file_path anyhow_result_imported
        (visitItem file_path anyhow_result_imported s it) rest

end

/-- The file-level facts the detector computes before walking: whether
the anyhow result type is imported, whether a conflicting local result
alias exists, and the items of the file. -/
structure UaSyntax where
  has_anyhow_result_import : Bool
  has_non_anyhow_result_alias : Bool
  items : List Item

/-- fn check_file of src/unattributed.rs: a read failure is an error
carrying the offending path, a parse failure yields an empty list, and a
parsed file is walked with the import flag set when the import is in
scope and no conflicting alias shadows it. -/
def check_file (path : String) (input : FileInput UaSyntax) :
    Except String (List UnattributedFunction) :=
  match input with
  | .readFailure => .error ("Reading " ++ path)
  | .parseFailure => .ok []
  | .parsed syn =>
      .ok (visitItems path
            (syn.has_anyhow_result_import && !syn.has_non_anyhow_result_alias)
            { in_cfg_test := false, in_trait_impl := false, results := [] }
            syn.items).results

end Unattributed

namespace Report

open Checker (DoubleContext)
open Unattributed (UnattributedFunction)

/-- A location of the structured report (struct JsonLocation in
src/report.rs). -/
structure JsonLocation where
  file : String
  line : Nat
deriving DecidableEq

/-- One double-context warning of the structured report. -/
structure JsonDoubleContextWarning where
  function_name : String
  call_site : JsonLocation
  definition : JsonLocation
  inner_context : String
  outer_context : Option String
  identical : Bool
deriving DecidableEq

/-- One unattributed warning of the structured report. -/
structure JsonUnattributedWarning where
  function_name : String
  location : JsonLocation
  is_method : Bool
  is_pub : Bool
deriving DecidableEq

/-- The double-context section of the structured report. -/
structure JsonDoubleContextSection where
  warnings : List JsonDoubleContextWarning
  total : Nat
deriving DecidableEq

/-- The unattributed section of the structured report. -/
structure JsonUnattributedSection where
  warnings : List JsonUnattributedWarning
  total : Nat
deriving DecidableEq

/-- The combined structured report (struct JsonReport in src/report.rs);
its rendering to a JSON string by serde is outside the model. -/
structure JsonReport where
  double_context : JsonDoubleContextSection
  unattributed : JsonUnattributedSection
deriving DecidableEq

/-- fn is_context_identical of src/report.rs: exact match, then
ASCII-case-insensitive match. -/
def is_context_identical (inner outer : String) : Bool :=
  if inner == outer then true
  else if eq_ignore_ascii_case inner outer then true
  else false

/-- Model of str::strip_prefix: the remainder when the prefix matches. -/
def drop_path_start (path p : String) : Option String :=
  if p.data.isPrefixOf path.data then
    some (String.mk (path.data.drop p.data.length))
  else none

/-- fn strip_path of src/report.rs: strip the given workspace path start
when present, otherwise keep the path unchanged. -/
def strip_path (path : String) (pre : Option String) : String :=
  match pre with
  | some p =>
    match drop_path_start path p with
    | some stripped => stripped
    | none => path
  | none => path

/-- The per-issue conversion inside format_combined_json for
double-context findings. -/
def to_dc_warning (pre : Option String) (issue : DoubleContext) :
    JsonDoubleContextWarning :=
  let outer := issue.outer_context.getD "<complex expression>"
  { function_name := issue.function_name
    call_site := { file := strip_path issue.call_file pre,
                   line := issue.call_line }
    definition := { file := strip_path issue.def_file pre,
                    line := issue.def_line }
    inner_context := issue.inner_context
    outer_context := issue.outer_context
    identical := is_context_identical issue.inner_context outer }

/-- The per-issue conversion inside format_combined_json for
unattributed findings. -/
def to_ua_warning (pre : Option String) (issue : UnattributedFunction) :
    JsonUnattributedWarning :=
  { function_name := issue.name
    location := { file := strip_path issue.file pre, line := issue.line }
    is_method := issue.is_method
    is_pub := issue.is_pub }

/-- fn format_combined_json of src/report.rs, up to serialization: both
warning lists are converted in order and each total is the length of its
warning list. -/
def format_combined_json (double_context : List DoubleContext)
    (unattributed : List UnattributedFunction) (pre : Option String) :
    JsonReport :=
  let dc_warnings := double_context.map (to_dc_warning pre)
  let ua_warnings := unattributed.map (to_ua_warning pre)
  { double_context := { warnings := dc_warnings, total := dc_warnings.length }
    unattributed := { warnings := ua_warnings, total := ua_warnings.length } }

end Report

end ContextLint

namespace ContextLint

open Collector (AnnotatedFunction AnnotatedFunctions)

/-- The receiver-chain reduction is invariant under any stack of
transparent wrappers. -/
theorem find_callee_apply_wrappers (ws : List Checker.Wrapper)
    (e : Checker.Expr) :
    Checker.find_callee_in_receiver (Checker.apply_wrappers ws e)
      = Checker.find_callee_in_receiver e := by
  induction ws with
  | nil => rfl
  | cons w ws ih =>
    cases w <;>
      simp [Checker.apply_wrappers, Checker.find_callee_in_receiver, ih]

/-- C3: wrapping the receiver of a combinator call in any combination of
await, parenthesization and the try operator, nested to any depth, never
changes the findings produced nor which index entries they reference. -/
theorem c3_theorem (ws : List Checker.Wrapper) (fp : String)
    (index : AnnotatedFunctions) (mc : Checker.MethodCall) :
    Checker.check_context_call fp index
        { mc with receiver := Checker.apply_wrappers ws mc.receiver }
      = Checker.check_context_call fp index mc := by
  unfold Checker.check_context_call
  simp only [find_callee_apply_wrappers]
  have h : ∀ nm : String,
      Checker.make_finding fp
          { mc with receiver := Checker.apply_wrappers ws mc.receiver } nm
        = Checker.make_finding fp mc nm := by
    intro nm; funext af; rfl
  simp only [h]

/-- C5: for each of the three passes, a file whose read fails yields an
error carrying the offending path, and a file whose parse fails yields
an empty finding or entry list rather than an error. -/
theorem c5_theorem (path : String) (index : AnnotatedFunctions) :
    (Collector.collect_from_file path .readFailure
        = .error ("Reading " ++ path))
  ∧ (Collector.collect_from_file path .parseFailure = .ok [])
  ∧ (Checker.check_file path index .readFailure
        = .error ("Reading " ++ path))
  ∧ (Checker.check_file path index .parseFailure = .ok [])
  ∧ (Unattributed.check_file path .readFailure
        = .error ("Reading " ++ path))
  ∧ (Unattributed.check_file path .parseFailure = .ok []) :=
  ⟨rfl, rfl, rfl, rfl, rfl, rfl⟩

/-- C9: in the structured report, each total equals the length of its
warning list, and the warnings are the converted input findings in the
same order. -/
theorem c9_theorem (dc : List Checker.DoubleContext)
    (ua : List Unattributed.UnattributedFunction) (pre : Option String) :
    ((Report.format_combined_json dc ua pre).double_context.total
        = (Report.format_combined_json dc ua pre).double_context.warnings.length)
  ∧ ((Report.format_combined_json dc ua pre).unattributed.total
        = (Report.format_combined_json dc ua pre).unattributed.warnings.length)
  ∧ ((Report.format_combined_json dc ua pre).double_context.warnings
        = dc.map (Report.to_dc_warning pre))
  ∧ ((Report.format_combined_json dc ua pre).unattributed.warnings
        = ua.map (Report.to_ua_warning pre)) :=
  ⟨rfl, rfl, rfl, rfl⟩

end ContextLint

namespace ContextLint

/-- C1 counterexample: a two-segment call to the denylisted name open
whose only qualifying candidate is the relative marker self is not
path-qualified-matching, yet a finding is produced, so acceptance is not
equivalent to path-qualified-matching and the all-relative-markers case
is accepted rather than rejected. -/
theorem c1_counterexample :
    (Checker.check_context_call "test.rs"
        [("open", [⟨"open", "a.rs", 1, "c", false⟩])]
        ⟨"context", .call (some ["self", "open"]), [], 5⟩
      = [⟨"test.rs", 5, "open", "c", none, "a.rs", 1, false⟩])
  ∧ (Checker.path_qualified_matching ["self", "open"]
        ⟨"open", "a.rs", 1, "c", false⟩ = false)
  ∧ (Checker.is_common_function_name "open" = true) :=
  ⟨rfl, rfl, rfl⟩

/-- C2 counterexample: a free-function call produces a finding against an
index entry whose is_method flag is true, refuting the claimed vice-versa
direction. -/
theorem c2_counterexample :
    (Checker.check_context_call "test.rs"
        [("load_config", [⟨"load_config", "b.rs", 2, "Loading", true⟩])]
        ⟨"context", .call (some ["load_config"]), [], 7⟩
      = [⟨"test.rs", 7, "load_config", "Loading", none, "b.rs", 2, false⟩])
  ∧ ((⟨"load_config", "b.rs", 2, "Loading", true⟩ :
        Collector.AnnotatedFunction).is_method = true) :=
  ⟨rfl, rfl⟩

/-- C4 counterexample: a return type in the two-segment qualified form
with two generic type arguments is recognized and yields an unattributed
finding, refuting the claim that it is excluded. -/
theorem c4_counterexample :
    (Unattributed.check_fn "f.rs" true false false []
        ⟨"do_work", 3, false,
          .ty (.path [⟨"anyhow", .noArgs⟩,
            ⟨"Result", .angleBracketed [.typeArg, .typeArg]⟩])⟩
        (some .inherited)
      = [⟨"f.rs", 3, "do_work", false, false⟩])
  ∧ (Unattributed.has_single_type_argument
        (.angleBracketed [.typeArg, .typeArg]) = false) :=
  ⟨rfl, rfl⟩

/-- C6 counterexample: a non-string literal as the context argument
extracts to the absent value, not to the complex-expression sentinel. -/
theorem c6_counterexample :
    Checker.extract_context_arg
      ⟨"context", .otherExpr, [.lit .otherLit], 2⟩ = none :=
  rfl

/-- C4 (amended): the exactly-one-generic-type-argument requirement
applies only to the bare single-segment result form; the two-segment
qualified form is recognized regardless of its generic arguments. -/
theorem c4_theorem :
    (∀ (imported : Bool) (name : String) (line : Nat) (recv : Bool)
        (a1 a2 : Unattributed.PathArguments),
      Unattributed.returns_anyhow_result imported
          ⟨name, line, recv,
            .ty (.path [⟨"anyhow", a1⟩, ⟨"Result", a2⟩])⟩ = true)
  ∧ (∀ (imported : Bool) (name : String) (line : Nat) (recv : Bool)
        (args : Unattributed.PathArguments),
      Unattributed.returns_anyhow_result imported
          ⟨name, line, recv, .ty (.path [⟨"Result", args⟩])⟩
        = (imported && Unattributed.has_single_type_argument args)) := by
  constructor
  · intro imported name line recv a1 a2
    rfl
  · intro imported name line recv args
    cases imported <;> rfl

/-- C6 (amended): a string-literal context argument extracts to its value
verbatim; a format-macro invocation extracts to the rendered
placeholder; a closure body is treated the same way, any other closure
body extracting to the sentinel; any other argument extracts to the
sentinel; but a non-string literal, a non-format macro (directly or as a
closure body) and a missing argument all extract to the absent value. -/
theorem c6_theorem (m : String) (r : Checker.Expr) (line : Nat)
    (rest : List Checker.ArgExpr) (s toks : String)
    (segs : List String) (body : Checker.ArgExpr) :
    (Checker.extract_context_arg ⟨m, r, [], line⟩ = none)
  ∧ (Checker.extract_context_arg ⟨m, r, .lit (.str s) :: rest, line⟩ = some s)
  ∧ (Checker.extract_context_arg ⟨m, r, .lit .otherLit :: rest, line⟩ = none)
  ∧ (Checker.last_segment_is_format segs = true →
      Checker.extract_context_arg ⟨m, r, .macroCall segs toks :: rest, line⟩
        = some ("format!(" ++ toks ++ ")"))
  ∧ (Checker.last_segment_is_format segs = false →
      Checker.extract_context_arg ⟨m, r, .macroCall segs toks :: rest, line⟩
        = none)
  ∧ (Checker.extract_context_arg
        ⟨m, r, .closure (.lit (.str s)) :: rest, line⟩ = some s)
  ∧ (Checker.extract_context_arg
        ⟨m, r, .closure (.lit .otherLit) :: rest, line⟩ = none)
  ∧ (Checker.last_segment_is_format segs = true →
      Checker.extract_context_arg
          ⟨m, r, .closure (.macroCall segs toks) :: rest, line⟩
        = some ("format!(" ++ toks ++ ")"))
  ∧ (Checker.last_segment_is_format segs = false →
      Checker.extract_context_arg
          ⟨m, r, .closure (.macroCall segs toks) :: rest, line⟩ = none)
  ∧ (Checker.extract_context_arg
        ⟨m, r, .closure (.closure body) :: rest, line⟩
      = some "<complex expression>")
  ∧ (Checker.extract_context_arg
        ⟨m, r, .closure .otherArg :: rest, line⟩
      = some "<complex expression>")
  ∧ (Checker.extract_context_arg ⟨m, r, .otherArg :: rest, line⟩
      = some "<complex expression>") := by
  refine ⟨rfl, rfl, rfl, ?_, ?_, rfl, rfl, ?_, ?_, rfl, rfl, rfl⟩ <;>
    intro h <;> simp [Checker.extract_context_arg, h]

/-- C6 witness: the format and non-format macro cases evaluated at
concrete inputs through the amended theorem. -/
theorem c6_witness :
    (Checker.extract_context_arg
        ⟨"context", .otherExpr, [.macroCall ["format"] "x"], 1⟩
      = some ("format!(" ++ "x" ++ ")"))
  ∧ (Checker.extract_context_arg
        ⟨"context", .otherExpr, [.macroCall ["println"] "x"], 1⟩ = none)
  ∧ (Checker.extract_context_arg
        ⟨"context", .otherExpr, [.closure (.macroCall ["format"] "x")], 1⟩
      = some ("format!(" ++ "x" ++ ")"))
  ∧ (Checker.extract_context_arg
        ⟨"context", .otherExpr, [.closure (.macroCall ["println"] "x")], 1⟩
      = none) :=
  ⟨( c6_theorem "context" .otherExpr 1 [] "s" "x" ["format"]
      .otherArg).2.2.2.1 rfl,
   ( c6_theorem "context" .otherExpr 1 [] "s" "x" ["println"]
      .otherArg).2.2.2.2.1 rfl,
   ( c6_theorem "context" .otherExpr 1 [] "s" "x" ["format"]
      .otherArg).2.2.2.2.2.2.2.1 rfl,
   ( c6_theorem "context" .otherExpr 1 [] "s" "x" ["println"]
      .otherArg).2.2.2.2.2.2.2.2.1 rfl⟩

/-- C8: every unattributed finding records is_pub true exactly when the
declaration visibility is the unrestricted public form; restricted and
inherited visibilities yield is_pub false. -/
theorem c8_theorem (fp : String) (imported ict iti : Bool)
    (attrs : List Attribute) (sig : Unattributed.Signature)
    (vis : Option Unattributed.Visibility)
    (f : Unattributed.UnattributedFunction)
    (hf : f ∈ Unattributed.check_fn fp imported ict iti attrs sig vis) :
    f.is_pub = true ↔ vis = some Unattributed.Visibility.publicVis := by
  unfold Unattributed.check_fn at hf
  split_ifs at hf <;>
    first
    | exact absurd hf (List.not_mem_nil f)
    | · simp only [List.mem_singleton] at hf
        subst hf
        cases vis with
        | none => simp
        | some v => cases v <;> simp

/-- C8 witness: the theorem applied at a concrete restricted-visibility
declaration that produces a finding. -/
theorem c8_witness :
    (⟨"w.rs", 7, "do_work", false, false⟩ :
        Unattributed.UnattributedFunction).is_pub = true
      ↔ some Unattributed.Visibility.restricted
          = some Unattributed.Visibility.publicVis :=
  c8_theorem "w.rs" true false false []
    ⟨"do_work", 7, false,
      .ty (.path [⟨"anyhow", .noArgs⟩,
        ⟨"Result", .angleBracketed [.typeArg]⟩])⟩
    (some .restricted)
    ⟨"w.rs", 7, "do_work", false, false⟩ (by decide)

end ContextLint

namespace ContextLint

open Collector (AnnotatedFunction AnnotatedFunctions)

/-- For a denylisted free-function callee with more than one path
segment, the plausibility filter reduces to: accept outright when no
qualifying segment remains, otherwise accept exactly the
path-qualified-matching entries. -/
theorem plausible_free_multi (name : String) (segs : List String)
    (af : AnnotatedFunction)
    (hcommon : Checker.is_common_function_name name = true)
    (hlen : 1 < segs.length) :
    Checker.is_plausible_match (.freeFunction name segs) af
      = (if (Checker.qualifying_segments segs).isEmpty then true
         else Checker.path_qualified_matching segs af) := by
  unfold Checker.is_plausible_match Checker.qualifying_segments
    Checker.path_qualified_matching
  dsimp only
  rw [hcommon, if_pos hlen]
  cases hq : ((segs.take (segs.length - 1)).filter
      (fun s => s != "crate" && s != "self" && s != "super")).isEmpty <;>
    simp [hq, Checker.qualifying_segments, List.any_filter]

/-- C1 (amended): for a combinator call whose reduced receiver is a
multi-segment free-function call with a denylisted bare name, when at
least one qualifying segment remains the findings are exactly the
path-qualified-matching index entries; when every segment but the last
is a relative-reference marker the call is accepted for every entry by
name alone rather than rejected. -/
theorem c1_theorem (fp : String) (index : AnnotatedFunctions)
    (mc : Checker.MethodCall) (name : String) (segs : List String)
    (hmethod : mc.method = "context" ∨ mc.method = "with_context")
    (hfind : Checker.find_callee_in_receiver mc.receiver
        = some (Checker.CalleeInfo.freeFunction name segs))
    (hcommon : Checker.is_common_function_name name = true)
    (hlen : 1 < segs.length) :
    (Checker.qualifying_segments segs ≠ [] →
      Checker.check_context_call fp index mc
        = (((index.lookup name).getD []).filter
              (fun af => Checker.path_qualified_matching segs af)).map
            (Checker.make_finding fp mc name))
  ∧ (Checker.qualifying_segments segs = [] →
      Checker.check_context_call fp index mc
        = ((index.lookup name).getD []).map
            (Checker.make_finding fp mc name)) := by
  have hguard : (mc.method != "context" && !(mc.method == "with_context"))
      = false := by
    rcases hmethod with h | h <;> rw [h] <;> rfl
  constructor
  · intro hq
    have hqe : (Checker.qualifying_segments segs).isEmpty = false := by
      cases hcase : Checker.qualifying_segments segs with
      | nil => exact absurd hcase hq
      | cons a t => rfl
    have hfn : (fun af => Checker.is_plausible_match
          (Checker.CalleeInfo.freeFunction name segs) af)
        = fun af => Checker.path_qualified_matching segs af := by
      funext af
      rw [plausible_free_multi name segs af hcommon hlen, hqe]
      simp
    unfold Checker.check_context_call
    simp only [hguard, hfind, Bool.false_eq_true, if_false,
      Checker.callee_name]
    rw [hfn]
    cases hl : index.lookup name with
    | none => simp
    | some fns => simp
  · intro hq
    have hqe : (Checker.qualifying_segments segs).isEmpty = true := by
      rw [hq]; rfl
    have hfn : (fun af => Checker.is_plausible_match
          (Checker.CalleeInfo.freeFunction name segs) af)
        = fun _ => true := by
      funext af
      rw [plausible_free_multi name segs af hcommon hlen, hqe]
      simp
    unfold Checker.check_context_call
    simp only [hguard, hfind, Bool.false_eq_true, if_false,
      Checker.callee_name]
    rw [hfn]
    cases hl : index.lookup name with
    | none => simp
    | some fns => simp

/-- C1 witness: the amended theorem applied to the podstorage scenario of
the spec, a qualified denylisted call whose qualifying segment matches
the defining-file path. -/
theorem c1_witness :
    Checker.check_context_call "t.rs"
        [("open", [⟨"open", "src/podstorage.rs", 284,
            "Opening imgstorage", false⟩])]
        ⟨"context", .call (some ["podstorage", "open"]), [], 5⟩
      = (((([("open", [⟨"open", "src/podstorage.rs", 284,
              "Opening imgstorage", false⟩])] :
            AnnotatedFunctions).lookup "open").getD []).filter
            (fun af => Checker.path_qualified_matching
              ["podstorage", "open"] af)).map
          (Checker.make_finding "t.rs"
            ⟨"context", .call (some ["podstorage", "open"]), [], 5⟩
            "open") :=
  ( c1_theorem "t.rs"
      [("open", [⟨"open", "src/podstorage.rs", 284,
          "Opening imgstorage", false⟩])]
      ⟨"context", .call (some ["podstorage", "open"]), [], 5⟩
      "open" ["podstorage", "open"]
      (Or.inl rfl) rfl rfl (by decide)).1 (by decide)

/-- C2 (amended): a method-call receiver produces findings exactly
against the entries whose is_method flag is true, while the plausibility
filter for a free-function receiver is independent of the is_method flag
of the entry, so a free-function call can match a method entry. -/
theorem c2_theorem (fp : String) (index : AnnotatedFunctions)
    (mc : Checker.MethodCall) (n : String)
    (hmethod : mc.method = "context" ∨ mc.method = "with_context")
    (hfind : Checker.find_callee_in_receiver mc.receiver
        = some (Checker.CalleeInfo.method n)) :
    (Checker.check_context_call fp index mc
      = (((index.lookup n).getD []).filter (fun af => af.is_method)).map
          (Checker.make_finding fp mc n))
  ∧ (∀ (m : String) (af : AnnotatedFunction),
      Checker.is_plausible_match (.method m) af = af.is_method)
  ∧ (∀ (name : String) (segs : List String) (af : AnnotatedFunction)
        (b : Bool),
      Checker.is_plausible_match (.freeFunction name segs) af
        = Checker.is_plausible_match (.freeFunction name segs)
            { af with is_method := b }) := by
  refine ⟨?_, fun m af => rfl, fun name segs af b => rfl⟩
  have hguard : (mc.method != "context" && !(mc.method == "with_context"))
      = false := by
    rcases hmethod with h | h <;> rw [h] <;> rfl
  unfold Checker.check_context_call
  simp only [hguard, hfind, Bool.false_eq_true, if_false, Checker.callee_name]
  cases hl : index.lookup n with
  | none => simp
  | some fns => rfl

/-- C2 witness: the amended theorem applied to a concrete method call
against an index holding one method entry and one free-function entry of
the same name. -/
theorem c2_witness :
    Checker.check_context_call "t.rs"
        [("prepare", [⟨"prepare", "c.rs", 9, "Prep", true⟩,
            ⟨"prepare", "d.rs", 3, "Other", false⟩])]
        ⟨"context", .methodCall "prepare", [], 4⟩
      = (((([("prepare", [⟨"prepare", "c.rs", 9, "Prep", true⟩,
              ⟨"prepare", "d.rs", 3, "Other", false⟩])] :
            AnnotatedFunctions).lookup "prepare").getD []).filter
            (fun af => af.is_method)).map
          (Checker.make_finding "t.rs"
            ⟨"context", .methodCall "prepare", [], 4⟩ "prepare") :=
  ( c2_theorem "t.rs"
      [("prepare", [⟨"prepare", "c.rs", 9, "Prep", true⟩,
          ⟨"prepare", "d.rs", 3, "Other", false⟩])]
      ⟨"context", .methodCall "prepare", [], 4⟩ "prepare"
      (Or.inl rfl) rfl).1

/-- A findSome? scan skips a leading block of elements on which the
function yields none. -/
theorem findSome_skip_none {α β : Type} (f : α → Option β) :
    ∀ (pre rest : List α), (∀ b ∈ pre, f b = none) →
      (pre ++ rest).findSome? f = rest.findSome? f := by
  intro pre
  induction pre with
  | nil => intro rest h; rfl
  | cons a t ih =>
    intro rest h
    have ha : f a = none := h a (List.mem_cons_self a t)
    rw [List.cons_append, List.findSome?_cons, ha]
    exact ih rest (fun b hb => h b (List.mem_cons_of_mem a hb))

/-- The string-literal scan skips a leading block of non-literal
tokens. -/
theorem ffsl_skip_nonlit (tks1 tks2 : List Token)
    (h : ∀ t ∈ tks1, token_is_lit t = false) :
    Collector.find_first_string_lit (tks1 ++ tks2)
      = Collector.find_first_string_lit tks2 := by
  induction tks1 with
  | nil => rfl
  | cons t ts ih =>
    cases t with
    | lit r =>
      exact absurd (h _ (List.mem_cons_self _ _)) (by simp [token_is_lit])
    | other r =>
      rw [List.cons_append]
      show Collector.find_first_string_lit (ts ++ tks2) = _
      exact ih (fun b hb => h b (List.mem_cons_of_mem _ hb))

/-- String append acts as list append on the underlying characters. -/
theorem string_data_append (a b : String) :
    (a ++ b).data = a.data ++ b.data := by
  cases a; cases b; rfl

/-- The characters of a string wrapped in double quotes. -/
theorem quote_wrap_data (s : String) :
    ("\"" ++ s ++ "\"").data = '\"' :: (s.data ++ ['\"']) := by
  simp [string_data_append]

/-- A quote-wrapped representation passes the string-literal shape
test. -/
theorem is_string_repr_wrap (s : String) :
    Collector.is_string_repr ("\"" ++ s ++ "\"") = true := by
  unfold Collector.is_string_repr
  rw [quote_wrap_data]
  have h2 : ('\"' :: (s.data ++ ['\"'])).getLast? = some '\"' := by
    rw [show '\"' :: (s.data ++ ['\"']) = ('\"' :: s.data) ++ ['\"'] from rfl,
      List.getLast?_concat]
  simp [h2]

/-- Stripping the quotes from a quote-wrapped representation recovers
the content. -/
theorem strip_quotes_wrap (s : String) :
    Collector.strip_quotes ("\"" ++ s ++ "\"") = s := by
  unfold Collector.strip_quotes
  rw [quote_wrap_data]
  simp [List.dropLast_concat]

/-- A context-marker attribute whose first literal-looking token is a
string literal extracts exactly that literal. -/
theorem extract_attr_wrap (pathSegs : List String) (tks1 tks2 : List Token)
    (tstr s : String)
    (hpath : pathSegs = ["context"]
      ∨ pathSegs = ["fn_error_context", "context"])
    (hlead : ∀ t ∈ tks1, token_is_lit t = false) :
    Collector.extract_context_string
        ⟨pathSegs, AttrMeta.list
            (tks1 ++ Token.lit ("\"" ++ s ++ "\"") :: tks2) tstr⟩
      = some s := by
  unfold Collector.extract_context_string
  rcases hpath with h | h <;> subst h <;>
    · dsimp only
      rw [ffsl_skip_nonlit tks1 _ hlead]
      simp [Collector.find_first_string_lit, is_string_repr_wrap,
        strip_quotes_wrap]

/-- C7: a declaration whose attribute list holds a context-marker
attribute (short or fully qualified form) whose first literal-looking
argument is a string literal, preceded only by attributes that extract
nothing, records exactly one index entry whose context template equals
that string literal, regardless of trailing arguments and of any further
attributes. -/
theorem c7_theorem (fp name : String) (is_method : Bool) (line : Nat)
    (pre post : List Attribute) (pathSegs : List String)
    (tks1 tks2 : List Token) (tstr s : String)
    (hpre : ∀ b ∈ pre, Collector.extract_context_string b = none)
    (hpath : pathSegs = ["context"]
      ∨ pathSegs = ["fn_error_context", "context"])
    (hlead : ∀ t ∈ tks1, token_is_lit t = false) :
    Collector.check_fn fp
        (pre ++ ⟨pathSegs, AttrMeta.list
            (tks1 ++ Token.lit ("\"" ++ s ++ "\"") :: tks2) tstr⟩ :: post)
        name is_method line
      = [⟨name, fp, line, s, is_method⟩] := by
  unfold Collector.check_fn
  rw [findSome_skip_none Collector.extract_context_string pre _ hpre,
    List.findSome?_cons,
    extract_attr_wrap pathSegs tks1 tks2 tstr s hpath hlead]

/-- C7 witness: the theorem applied to a concrete attribute with a
leading move token, a trailing non-string literal argument and a second
context attribute. -/
theorem c7_witness :
    Collector.check_fn "lib.rs"
        ([] ++ ⟨["context"], AttrMeta.list
            ([Token.other "move", Token.other ","]
              ++ Token.lit ("\"" ++ "Loading config" ++ "\"")
                :: [Token.other ",", Token.lit "42"]) "tok"⟩
          :: [⟨["context"],
                AttrMeta.list [Token.lit ("\"" ++ "Second" ++ "\"")] "t2"⟩])
        "load_config" false 3
      = [⟨"load_config", "lib.rs", 3, "Loading config", false⟩] :=
  c7_theorem "lib.rs" "load_config" false 3 []
    [⟨["context"], AttrMeta.list [Token.lit ("\"" ++ "Second" ++ "\"")] "t2"⟩]
    ["context"] [Token.other "move", Token.other ","]
    [Token.other ",", Token.lit "42"] "tok" "Loading config"
    (by simp) (Or.inl rfl) (by decide)

/-- C10: the visitor flag for test scope is set for a module subtree
exactly when some cfg attribute has a token stream trimming to the
single identifier test; composite conditions do not set it; and the flag
is restored to its previous value after the subtree. -/
theorem c10_theorem :
    (∀ attrs : List Attribute,
      Unattributed.has_cfg_test_attribute attrs = true
        ↔ ∃ a ∈ attrs, a.pathSegments = ["cfg"]
            ∧ ∃ tks tstr, a.meta = AttrMeta.list tks tstr
                ∧ str_trim tstr = "test")
  ∧ ((Unattributed.has_cfg_test_attribute)
        [⟨["cfg"], AttrMeta.list [] "all (test)"⟩] = false)
  ∧ ((Unattributed.has_cfg_test_attribute)
        [⟨["cfg"], AttrMeta.list [] "test , feature = \"x\""⟩] = false)
  ∧ (∀ (fp : String) (imported : Bool) (st : Unattributed.UaState)
        (attrs : List Attribute) (items : List Unattributed.Item),
      Unattributed.visitItem fp imported st
          (Unattributed.Item.modItem attrs items)
        = { Unattributed.visitItems fp imported
              { st with in_cfg_test :=
                  st.in_cfg_test || Unattributed.has_cfg_test_attribute attrs }
              items
            with in_cfg_test := st.in_cfg_test }) := by
  refine ⟨?_, by decide, by decide, ?_⟩
  · intro attrs
    unfold Unattributed.has_cfg_test_attribute
    rw [List.any_eq_true]
    constructor
    · rintro ⟨a, ha, hp⟩
      refine ⟨a, ha, ?_⟩
      obtain ⟨ps, meta⟩ := a
      dsimp only at hp ⊢
      by_cases hps : ps = ["cfg"]
      · subst hps
        simp only [bne_self_eq_false, Bool.false_eq_true, if_false] at hp
        cases meta with
        | list tks ts =>
          refine ⟨rfl, tks, ts, rfl, ?_⟩
          exact eq_of_beq hp
        | pathOnly => simp at hp
        | nameValue => simp at hp
      · rw [if_pos (by simpa using hps)] at hp
        exact absurd hp (by simp)
    · rintro ⟨a, ha, hps, tks, ts, hmeta, htrim⟩
      refine ⟨a, ha, ?_⟩
      obtain ⟨ps, meta⟩ := a
      dsimp only at hps hmeta ⊢
      subst hps
      subst hmeta
      simp [htrim]
  · intro fp imported st attrs items
    cases h : Unattributed.has_cfg_test_attribute attrs <;>
      simp [Unattributed.visitItem, h]

end ContextLint
